import Mathlib

/-!
Verification of the `bevy_gameplay_ability_system` core: a shallow embedding of
the attribute store, the gameplay-effect pipeline and the ability-state logic,
together with proofs about the modifier-aggregation algorithm, clamping,
effect lifecycle and ability gating.

Modelling conventions:
* Bevy `Entity` ids are natural numbers.
* `f32` values are modelled as exact rationals (`ℚ`); `f32::EPSILON` is `2⁻²³`.
* An ECS system is a pure function from the world state it queries to the
  world state it writes; `Commands`-based spawns/despawns become list edits.
* `Query` iteration order is the order of the embedding's lists, i.e. the
  order in which the corresponding entities were spawned.
-/

namespace GAS

/-- Bevy `Entity` identifier, modelled as a natural number. -/
abbrev Entity := Nat

/-! ### `attributes/components.rs` -/

/-- Source `AttributeData`: base value (permanent) and current value (after modifiers). -/
structure AttributeData where
  base_value : ℚ
  current_value : ℚ
deriving DecidableEq

/-- Source `AttributeData::new`: the current value is initialised to the base value. -/
def AttributeData.new (base_value : ℚ) : AttributeData :=
  { base_value := base_value, current_value := base_value }

/-- Source `AttributeMetadata`: per-attribute constraints. -/
structure AttributeMetadata where
  name : String
  min_value : Option ℚ
  max_value : Option ℚ
deriving DecidableEq

/-- Source `AttributeMetadata::clamp`: apply the `min` bound (via `f32::max`) and then
the `max` bound (via `f32::min`), each only when present. -/
def AttributeMetadata.clamp (meta : AttributeMetadata) (value : ℚ) : ℚ :=
  let r1 :=
    match meta.min_value with
    | some mn => max value mn
    | none => value
  match meta.max_value with
  | some mx => min r1 mx
  | none => r1

/-! ### `attributes/systems.rs` -/

/-- Body of `clamp_attributes_system` for one attribute that has metadata: both
`current_value` and `base_value` are clamped.  The source's `if clamped !=
attr.current_value` guards only avoid redundant ECS writes; the stored value is
the clamped value in either branch, which is what this definition returns. -/
def clampAttributeData (meta : AttributeMetadata) (a : AttributeData) : AttributeData :=
  { base_value := meta.clamp a.base_value, current_value := meta.clamp a.current_value }

/-- Source `clamp_attributes_system`: clamp every attribute that carries an
`AttributeMetadataComponent`; attributes without metadata are untouched. -/
def clamp_attributes_system (attrs : List (AttributeData × Option AttributeMetadata)) :
    List (AttributeData × Option AttributeMetadata) :=
  attrs.map fun x =>
    match x.2 with
    | some meta => (clampAttributeData meta x.1, x.2)
    | none => x

/-! ### `effects/components.rs` -/

/-- Source `ModifierOperation`: the five modifier operations. -/
inductive ModifierOperation where
  | AddBase
  | AddCurrent
  | MultiplyAdditive
  | MultiplyMultiplicative
  | Override
deriving DecidableEq

/-- Source `ModifierOperation::priority`: lower values are applied first. -/
def ModifierOperation.priority : ModifierOperation → Nat
  | .AddBase => 0
  | .AddCurrent => 1
  | .MultiplyAdditive => 2
  | .MultiplyMultiplicative => 3
  | .Override => 4

/-- Source `AttributeModifier`: a single modifier applied to an attribute by an effect. -/
structure AttributeModifier where
  target_entity : Entity
  target_attribute : String
  operation : ModifierOperation
  magnitude : ℚ
deriving DecidableEq

/-- Source `EffectDuration`: remaining and total duration of a timed effect. -/
structure EffectDuration where
  remaining : ℚ
  total : ℚ
deriving DecidableEq

/-- Source `EffectDuration::new`. -/
def EffectDuration.new (duration : ℚ) : EffectDuration :=
  { remaining := duration, total := duration }

/-- Source `EffectDuration::is_expired`: `remaining <= 0.0`. -/
def EffectDuration.is_expired (d : EffectDuration) : Bool :=
  decide (d.remaining ≤ 0)

/-- Source `EffectDuration::tick`: `remaining -= delta`. -/
def EffectDuration.tick (d : EffectDuration) (delta : ℚ) : EffectDuration :=
  { d with remaining := d.remaining - delta }

/-- Source `PeriodicEffect`: period and countdown to the next execution. -/
structure PeriodicEffect where
  period : ℚ
  time_until_next : ℚ
deriving DecidableEq

/-- Source `PeriodicEffect::new`: the countdown starts at one full period. -/
def PeriodicEffect.new (period : ℚ) : PeriodicEffect :=
  { period := period, time_until_next := period }

/-- Source `PeriodicEffect::should_execute`: `time_until_next <= 0.0`. -/
def PeriodicEffect.should_execute (p : PeriodicEffect) : Bool :=
  decide (p.time_until_next ≤ 0)

/-- Source `PeriodicEffect::tick`: subtract `delta` once; if the timer is now `≤ 0`,
add `period` back once and report `true`.  The source performs at most one
such add-back (and hence reports at most one execution) per call. -/
def PeriodicEffect.tick (p : PeriodicEffect) (delta : ℚ) : PeriodicEffect × Bool :=
  let p1 : PeriodicEffect := { p with time_until_next := p.time_until_next - delta }
  if p1.should_execute then
    ({ p1 with time_until_next := p1.time_until_next + p1.period }, true)
  else
    (p1, false)

/-- Number of periodic executions that `execute_periodic_effects_system`
observes for one component in one run: the system calls `tick` once per frame
and treats its boolean result as "execute this frame". -/
def periodicExecutionsInTick (p : PeriodicEffect) (delta : ℚ) : Nat :=
  if (p.tick delta).2 then 1 else 0

/-- Source `ActiveGameplayEffect`: one live application of an effect definition. -/
structure ActiveGameplayEffect where
  definition_id : String
  level : Int
  start_time : ℚ
  stack_count : Int
deriving DecidableEq

/-! ### `effects/definition.rs` -/

/-- Source `DurationPolicy`. -/
inductive DurationPolicy where
  | Instant
  | HasDuration
  | Infinite
deriving DecidableEq

/-- Source `StackingPolicy`. -/
inductive StackingPolicy where
  | Independent
  | RefreshDuration
  | StackCount (max_stacks : Int)
deriving DecidableEq

/-- Source `MagnitudeCalculation`. -/
inductive MagnitudeCalculation where
  | ScalableFloat (base_value : ℚ)
  | AttributeBased (attribute_name : String) (coefficient : ℚ)
      (pre_multiply_additive : ℚ) (post_multiply_additive : ℚ)
  | Custom
deriving DecidableEq

/-- Source `MagnitudeCalculation::evaluate`: a scalar returns its base value; an
attribute-based magnitude computes `(source + pre) * coefficient + post` with a
missing source treated as `0.0`; `Custom` returns `0.0`. -/
def MagnitudeCalculation.evaluate (m : MagnitudeCalculation) (_level : Int)
    (source_value : Option ℚ) : ℚ :=
  match m with
  | .ScalableFloat base_value => base_value
  | .AttributeBased _ coefficient pre post => (source_value.getD 0 + pre) * coefficient + post
  | .Custom => 0

/-- Source `ModifierInfo`: one modifier entry of an effect definition. -/
structure ModifierInfo where
  attribute_name : String
  operation : ModifierOperation
  magnitude : MagnitudeCalculation
deriving DecidableEq

/-- Source `GameplayEffectDefinition`.  `application_tag_requirements` is omitted: no
implemented system in the source reads it. -/
structure GameplayEffectDefinition where
  id : String
  duration_policy : DurationPolicy
  duration_magnitude : ℚ
  period : ℚ
  modifiers : List ModifierInfo
  granted_tags : List String
  stacking_policy : StackingPolicy
deriving DecidableEq

/-- Source `GameplayEffectRegistry`, modelled as an association list; `register`
inserts at the front so that `get` sees the latest registration. -/
def registryGet (registry : List (String × GameplayEffectDefinition)) (id : String) :
    Option GameplayEffectDefinition :=
  (registry.find? (fun kv => kv.1 == id)).map (·.2)

/-! ### the modifier aggregator, `effects/systems.rs` lines 104-153 -/

/-- Comparison used by the source's `sort_by_key(|m| m.operation.priority())`. -/
def modifierLE (a b : AttributeModifier) : Bool :=
  decide (a.operation.priority ≤ b.operation.priority)

/-- The sort of `aggregate_attribute_modifiers_system`: Rust's
`slice::sort_by_key` is a stable sort, modelled by the stable `mergeSort`. -/
def sortModifiers (l : List AttributeModifier) : List AttributeModifier :=
  l.mergeSort modifierLE

/-- Modifiers of one operation-priority class, in their original order. -/
def priorityClass (k : Nat) (l : List AttributeModifier) : List AttributeModifier :=
  l.filter (fun m => m.operation.priority == k)

/-- Accumulator of the aggregation loop: the three mutable locals of
`aggregate_attribute_modifiers_system`. -/
structure AggAcc where
  current : ℚ
  additive_multiplier : ℚ
  multiplicative_multiplier : ℚ
deriving DecidableEq

/-- One iteration of the aggregation loop.  `AddBase` is skipped — the source
comment reads "This should have been applied when the effect was created / For
now, we'll skip it in the aggregation". -/
def aggregateStep (acc : AggAcc) (m : AttributeModifier) : AggAcc :=
  match m.operation with
  | .AddBase => acc
  | .AddCurrent => { acc with current := acc.current + m.magnitude }
  | .MultiplyAdditive =>
      { acc with additive_multiplier := acc.additive_multiplier + m.magnitude }
  | .MultiplyMultiplicative =>
      { acc with multiplicative_multiplier := acc.multiplicative_multiplier * (1 + m.magnitude) }
  | .Override => { acc with current := m.magnitude }

/-- The value computed by one aggregator pass for one attribute, from its base
value and the modifiers that target it: sort by operation priority (stable),
fold the loop, then apply `current * (1 + additive) * multiplicative`. -/
def aggregateValue (base : ℚ) (mods : List AttributeModifier) : ℚ :=
  let acc := (sortModifiers mods).foldl aggregateStep
    { current := base, additive_multiplier := 0, multiplicative_multiplier := 1 }
  acc.current * (1 + acc.additive_multiplier) * acc.multiplicative_multiplier

/-- The modifier filter of the aggregator:
`m.target_entity == attr_owner.0 && m.target_attribute == attr_name`. -/
def applicableModifiers (owner : Entity) (name : String) (mods : List AttributeModifier) :
    List AttributeModifier :=
  mods.filter (fun m => m.target_entity == owner && m.target_attribute == name)

/-- Source `f32::EPSILON` = 2⁻²³. -/
def f32_epsilon : ℚ := 1 / 2 ^ 23

/-- One attribute's update in `aggregate_attribute_modifiers_system`: compute
the aggregated value and write it to `current_value` only when it differs from
the stored value by more than `f32::EPSILON`.  `base_value` is never written. -/
def aggregatePassAttr (owner : Entity) (name : String) (mods : List AttributeModifier)
    (a : AttributeData) : AttributeData :=
  if |aggregateValue a.base_value (applicableModifiers owner name mods) - a.current_value| >
      f32_epsilon then
    { a with current_value := aggregateValue a.base_value (applicableModifiers owner name mods) }
  else
    a

/-! ### claim-side formula (for the refinement claims C1/C6)

`claimAggregateFormula` is written from the spec's words, not from the source:
start from the base value, add every `AddCurrent` magnitude, let the last
`Override` (in stable priority order, i.e. the last submitted `Override`)
replace the accumulated value, then multiply by `1 + Σ MultiplyAdditive` and by
`Π (1 + magnitude)` over the `MultiplyMultiplicative` modifiers. -/

/-- Sum of the `AddCurrent` magnitudes of a modifier list. -/
def addCurrentSum (l : List AttributeModifier) : ℚ :=
  ((l.filter (fun m => m.operation == ModifierOperation.AddCurrent)).map (·.magnitude)).sum

/-- Sum of the `MultiplyAdditive` magnitudes of a modifier list. -/
def multiplyAdditiveSum (l : List AttributeModifier) : ℚ :=
  ((l.filter (fun m => m.operation == ModifierOperation.MultiplyAdditive)).map (·.magnitude)).sum

/-- Product of `1 + magnitude` over the `MultiplyMultiplicative` modifiers. -/
def multiplyMultiplicativeProd (l : List AttributeModifier) : ℚ :=
  ((l.filter (fun m => m.operation == ModifierOperation.MultiplyMultiplicative)).map
    (fun m => 1 + m.magnitude)).prod

/-- Magnitude of the last `Override` modifier in submission order, if any. -/
def lastOverrideMagnitude (l : List AttributeModifier) : Option ℚ :=
  ((l.filter (fun m => m.operation == ModifierOperation.Override)).map (·.magnitude)).getLast?

/-- The spec's aggregation formula (see the section comment above). -/
def claimAggregateFormula (base : ℚ) (l : List AttributeModifier) : ℚ :=
  (match lastOverrideMagnitude l with
   | some v => v
   | none => base + addCurrentSum l) *
    (1 + multiplyAdditiveSum l) * multiplyMultiplicativeProd l

/-! ### world state for the effect pipeline, `effects/systems.rs` -/

/-- An entity carrying `ActiveGameplayEffect` + `EffectTarget` and the optional
components `EffectInstigator`, `EffectDuration`, `PeriodicEffect` and
`EffectGrantedTags`. -/
structure EffectEntity where
  id : Entity
  active : ActiveGameplayEffect
  target : Entity
  instigator : Option Entity
  duration : Option EffectDuration
  periodic : Option PeriodicEffect
  granted : List String
deriving DecidableEq

/-- An entity carrying `AttributeModifier` + `ModifierSource`.  The modifier
entity's own id is never read by any system (despawning is modelled by list
filtering on the source), so it is not recorded. -/
structure ModifierEntity where
  modifier : AttributeModifier
  source : Entity
deriving DecidableEq

/-- An entity carrying `AttributeData` + `AttributeName` + `AttributeOwner` and
optionally `AttributeMetadataComponent`. -/
structure AttributeEntity where
  id : Entity
  owner : Entity
  name : String
  data : AttributeData
  metadata : Option AttributeMetadata
deriving DecidableEq

/-- The ECS world slice read and written by the effect systems.
`tagContainers` are the targets' `GameplayTagCountContainer`s from the external
`bevy_gameplay_tag` crate, modelled as lists of tag strings. -/
structure EffectWorld where
  effects : List EffectEntity
  modifiers : List ModifierEntity
  attributes : List AttributeEntity
  tagContainers : List (Entity × List String)
deriving DecidableEq

/-- Source `ApplyGameplayEffectEvent`. -/
structure ApplyGameplayEffectEvent where
  effect_id : String
  target : Entity
  instigator : Option Entity
  level : Int
deriving DecidableEq

/-- Source `apply_gameplay_effect_system`: the source's body is empty ("TODO:
Implement with Bevy 0.18 observer pattern"), so the system changes nothing —
it creates no effect instance and surfaces no error, whatever the events say. -/
def apply_gameplay_effect_system (_registry : List (String × GameplayEffectDefinition))
    (_events : List ApplyGameplayEffectEvent) (w : EffectWorld) : EffectWorld :=
  w

/-- The modifiers spawned by `create_effect_modifiers_system` for one newly
added effect instance: a missing definition is skipped silently (`let Some(..)
else { continue; }`); otherwise one modifier per `ModifierInfo`, with the
magnitude evaluated at the instance's level and `source_value = None` (the
source's "TODO: Get from instigator's attributes if needed"). -/
def modifiersForEffect (registry : List (String × GameplayEffectDefinition))
    (e : EffectEntity) : List AttributeModifier :=
  match registryGet registry e.active.definition_id with
  | none => []
  | some definition =>
      definition.modifiers.map fun mi =>
        { target_entity := e.target
          target_attribute := mi.attribute_name
          operation := mi.operation
          magnitude := mi.magnitude.evaluate e.active.level none }

/-- Source `create_effect_modifiers_system`: spawn modifier entities (tagged with
their `ModifierSource`) for every effect added this frame.  `newEffects` is
the `Added<ActiveGameplayEffect>` query result. -/
def create_effect_modifiers_system (registry : List (String × GameplayEffectDefinition))
    (newEffects : List EffectEntity) (w : EffectWorld) : EffectWorld :=
  { w with
    modifiers := w.modifiers ++
      newEffects.flatMap fun e =>
        (modifiersForEffect registry e).map fun m => ⟨m, e.id⟩ }

/-- Source `update_effect_durations_system`: tick every `EffectDuration`. -/
def update_effect_durations_system (delta : ℚ) (w : EffectWorld) : EffectWorld :=
  { w with
    effects := w.effects.map fun e =>
      { e with duration := e.duration.map (·.tick delta) } }

/-- Source `execute_periodic_effects_system`: tick every `PeriodicEffect` once; the
execution branch is a placeholder in the source ("TODO: Trigger periodic
execution"), so nothing else happens even when `tick` reports `true`. -/
def execute_periodic_effects_system (delta : ℚ) (w : EffectWorld) : EffectWorld :=
  { w with
    effects := w.effects.map fun e =>
      { e with periodic := e.periodic.map (fun p => (p.tick delta).1) } }

/-- Whether an effect entity is expired: it carries an `EffectDuration` (it is
in the `remove_expired_effects_system` query) and `is_expired()` holds. -/
def effectExpired (e : EffectEntity) : Bool :=
  match e.duration with
  | some d => d.is_expired
  | none => false

/-- Source `remove_expired_effects_system`: despawn every expired effect entity and
every modifier entity whose `ModifierSource` is such an effect.  Nothing else
is touched — in particular the targets' tag containers are not. -/
def remove_expired_effects_system (w : EffectWorld) : EffectWorld :=
  { w with
    effects := w.effects.filter fun e => !effectExpired e
    modifiers := w.modifiers.filter fun m =>
      !(w.effects.any fun e => effectExpired e && e.id == m.source) }

/-- Source `remove_instant_effects_system`: despawn every effect added this frame
whose definition has `DurationPolicy::Instant`.  Only the effect entity itself
is despawned; its modifier entities are not touched. -/
def remove_instant_effects_system (registry : List (String × GameplayEffectDefinition))
    (newEffects : List EffectEntity) (w : EffectWorld) : EffectWorld :=
  { w with
    effects := w.effects.filter fun e =>
      !(newEffects.any fun ne =>
        ne.id == e.id &&
          match registryGet registry ne.active.definition_id with
          | some definition => definition.duration_policy == DurationPolicy.Instant
          | none => false) }

/-- Source `aggregate_attribute_modifiers_system`: recompute every attribute's
current value from its base value and the live modifiers targeting it. -/
def aggregate_attribute_modifiers_system (w : EffectWorld) : EffectWorld :=
  { w with
    attributes := w.attributes.map fun a =>
      { a with data := aggregatePassAttr a.owner a.name (w.modifiers.map (·.modifier)) a.data } }

/-! ### `abilities/definition.rs`, `abilities/components.rs` -/

/-- Source `AbilityDefinition` (fields read by the embedded systems; cost/cooldown
effect ids are only consumed by unimplemented TODO systems and are omitted). -/
structure AbilityDefinition where
  id : String
  activation_required_tags : List String
  activation_blocked_tags : List String
  cancel_on_tags_added : List String
deriving DecidableEq

/-- Source `AbilityRegistry`, modelled as an association list like the effect
registry. -/
def abilityRegistryGet (registry : List (String × AbilityDefinition)) (id : String) :
    Option AbilityDefinition :=
  (registry.find? (fun kv => kv.1 == id)).map (·.2)

/-- Source `has_matching_gameplay_tag` of the external `bevy_gameplay_tag` crate,
consumed as a collaborator: the container is modelled as the list of tags it
answers `true` for (hierarchical resolution happens inside the collaborator). -/
def hasMatchingGameplayTag (container : List String) (tag : String) : Bool :=
  container.contains tag

/-- Source `check_ability_activation_requirements`: every required tag must match and
no blocked tag may match (the source's two early-return loops). -/
def check_ability_activation_requirements (ability_def : AbilityDefinition)
    (tags : List String) : Bool :=
  ability_def.activation_required_tags.all (fun t => hasMatchingGameplayTag tags t) &&
    ability_def.activation_blocked_tags.all (fun t => !hasMatchingGameplayTag tags t)

/-- Source `AbilitySpec`. -/
structure AbilitySpec where
  definition_id : String
  level : Int
  input_id : Option Int
  is_active : Bool
deriving DecidableEq

/-- Source `AbilityState`. -/
inductive AbilityState where
  | Ready
  | Active
  | Cooldown
  | Blocked
deriving DecidableEq

/-- Source `AbilityCooldown`. -/
structure AbilityCooldown where
  remaining : ℚ
  total : ℚ
deriving DecidableEq

/-- Source `AbilityCooldown::is_expired`: `remaining <= 0.0`. -/
def AbilityCooldown.is_expired (c : AbilityCooldown) : Bool :=
  decide (c.remaining ≤ 0)

/-- An entity carrying `AbilitySpec` + `AbilityOwner` + `AbilityState`. -/
structure AbilitySpecEntity where
  id : Entity
  spec : AbilitySpec
  owner : Entity
  state : AbilityState
deriving DecidableEq

/-- The ECS world slice read by `update_ability_states_system`: the ability
spec entities, every entity carrying an `AbilityCooldown` (as pairs of entity
id and component), the owners' tag containers, and the ability registry. -/
structure AbilityWorld where
  specs : List AbilitySpecEntity
  cooldowns : List (Entity × AbilityCooldown)
  tagContainers : List (Entity × List String)
  registry : List (String × AbilityDefinition)
deriving DecidableEq

/-- Tag container of an owner, as `tag_containers.get(owner)`. -/
def tagsOf (containers : List (Entity × List String)) (owner : Entity) :
    Option (List String) :=
  (containers.find? (fun kv => kv.1 == owner)).map (·.2)

/-- The new `AbilityState` computed by `update_ability_states_system` for one
spec entity: `Active` if `is_active`; else `Cooldown` if ANY unexpired
`AbilityCooldown` exists anywhere (`cooldowns.iter().any(|cd|
!cd.is_expired())` — the query is not filtered to the spec, its definition or
its owner); else `Blocked` if the definition and the owner's tag container are
both found and the tag check fails; else `Ready`. -/
def updateAbilityStateEntry (w : AbilityWorld) (se : AbilitySpecEntity) : AbilityState :=
  if se.spec.is_active then
    AbilityState.Active
  else if w.cooldowns.any (fun cd => !cd.2.is_expired) then
    AbilityState.Cooldown
  else
    match abilityRegistryGet w.registry se.spec.definition_id, tagsOf w.tagContainers se.owner with
    | some definition, some tags =>
        if !check_ability_activation_requirements definition tags then
          AbilityState.Blocked
        else
          AbilityState.Ready
    | _, _ => AbilityState.Ready

/-- Source `update_ability_states_system`: recompute every spec's displayed state. -/
def update_ability_states_system (w : AbilityWorld) : AbilityWorld :=
  { w with specs := w.specs.map fun se => { se with state := updateAbilityStateEntry w se } }

/-- Claim C3's state projection, written from the spec's words: `Cooldown`
only when an unexpired cooldown timer exists for THAT spec (the cooldown
component attached to the spec's own entity) — unlike the source, which
consults every cooldown in the world. -/
def claimedAbilityState (w : AbilityWorld) (se : AbilitySpecEntity) : AbilityState :=
  if se.spec.is_active then
    AbilityState.Active
  else if w.cooldowns.any (fun cd => cd.1 == se.id && !cd.2.is_expired) then
    AbilityState.Cooldown
  else
    match abilityRegistryGet w.registry se.spec.definition_id, tagsOf w.tagContainers se.owner with
    | some definition, some tags =>
        if !check_ability_activation_requirements definition tags then
          AbilityState.Blocked
        else
          AbilityState.Ready
    | _, _ => AbilityState.Ready

/-! ### concrete fixtures used by the claim evaluations -/

/-- An empty effect world. -/
def emptyEffectWorld : EffectWorld :=
  { effects := [], modifiers := [], attributes := [], tagContainers := [] }

/-- An `Instant` effect definition carrying a single `AddBase(+25)` modifier
on `Health` — the spec's "permanent base change" scenario. -/
def permBuffDefinition : GameplayEffectDefinition :=
  { id := "perm_buff"
    duration_policy := DurationPolicy.Instant
    duration_magnitude := 0
    period := 0
    modifiers := [⟨"Health", ModifierOperation.AddBase, MagnitudeCalculation.ScalableFloat 25⟩]
    granted_tags := []
    stacking_policy := StackingPolicy.Independent }

/-- Registry holding only `perm_buff`. -/
def permBuffRegistry : List (String × GameplayEffectDefinition) :=
  [("perm_buff", permBuffDefinition)]

/-- A freshly created `perm_buff` instance (entity 5) targeting entity 1. -/
def permBuffEffectEntity : EffectEntity :=
  { id := 5
    active := { definition_id := "perm_buff", level := 1, start_time := 0, stack_count := 1 }
    target := 1
    instigator := none
    duration := none
    periodic := none
    granted := [] }

/-- World right after the `perm_buff` instance was spawned: entity 1 has a
`Health` attribute with base 100, no modifiers exist yet. -/
def permBuffWorld0 : EffectWorld :=
  { effects := [permBuffEffectEntity]
    modifiers := []
    attributes := [⟨7, 1, "Health", ⟨100, 100⟩, none⟩]
    tagContainers := [] }

/-- The frame pipeline applied to the new instant effect: modifier creation,
instant-effect removal, then the aggregation pass. -/
def permBuffWorldAfter : EffectWorld :=
  aggregate_attribute_modifiers_system
    (remove_instant_effects_system permBuffRegistry [permBuffEffectEntity]
      (create_effect_modifiers_system permBuffRegistry [permBuffEffectEntity] permBuffWorld0))

/-- A duration effect instance (entity 5) that has expired (`remaining = 0`),
owning one `AddCurrent(+30)` modifier on `Strength` and having granted the tag
`Buff.Strength` to its target, entity 1. -/
def expiredBuffWorld : EffectWorld :=
  { effects :=
      [{ id := 5
         active := { definition_id := "str_buff", level := 1, start_time := 0, stack_count := 1 }
         target := 1
         instigator := none
         duration := some { remaining := 0, total := 2 }
         periodic := none
         granted := ["Buff.Strength"] }]
    modifiers := [⟨⟨1, "Strength", ModifierOperation.AddCurrent, 30⟩, 5⟩]
    attributes := []
    tagContainers := [(1, ["Buff.Strength"])] }

/-- An apply request naming a definition id that is not in the registry. -/
def unknownApplyEvent : ApplyGameplayEffectEvent :=
  { effect_id := "unknown_effect", target := 1, instigator := none, level := 1 }

/-- An effect instance whose definition id is missing from the registry. -/
def unknownEffectEntity : EffectEntity :=
  { id := 6
    active := { definition_id := "unknown_effect", level := 1, start_time := 0, stack_count := 1 }
    target := 1
    instigator := none
    duration := none
    periodic := none
    granted := [] }

/-- A `StackCount { max_stacks: 3 }` effect definition. -/
def poisonStackDefinition : GameplayEffectDefinition :=
  { id := "poison_stack"
    duration_policy := DurationPolicy.Infinite
    duration_magnitude := 0
    period := 0
    modifiers := []
    granted_tags := []
    stacking_policy := StackingPolicy.StackCount 3 }

/-- Registry holding only `poison_stack`. -/
def poisonStackRegistry : List (String × GameplayEffectDefinition) :=
  [("poison_stack", poisonStackDefinition)]

/-- An apply request for `poison_stack` on target entity 2. -/
def poisonApplyEvent : ApplyGameplayEffectEvent :=
  { effect_id := "poison_stack", target := 2, instigator := none, level := 1 }

/-- An ability definition with no tag requirements. -/
def fireballDefinition : AbilityDefinition :=
  { id := "fireball"
    activation_required_tags := []
    activation_blocked_tags := []
    cancel_on_tags_added := [] }

/-- A non-active `fireball` spec (entity 10) owned by entity 1. -/
def fireballSpecEntity : AbilitySpecEntity :=
  { id := 10
    spec := { definition_id := "fireball", level := 1, input_id := none, is_active := false }
    owner := 1
    state := AbilityState.Ready }

/-- Ability world in which the only unexpired cooldown (3 s left) sits on the
unrelated entity 99 — not on the `fireball` spec, its definition or its
owner. -/
def strayCooldownWorld : AbilityWorld :=
  { specs := [fireballSpecEntity]
    cooldowns := [(99, { remaining := 3, total := 5 })]
    tagContainers := [(1, [])]
    registry := [("fireball", fireballDefinition)] }

/-! ## Helper lemmas about the stable sort of the aggregator -/

theorem modifierLE_trans (a b c : AttributeModifier) :
    modifierLE a b = true → modifierLE b c = true → modifierLE a c = true := by
  simp only [modifierLE, decide_eq_true_eq]
  omega

theorem modifierLE_total (a b : AttributeModifier) :
    (modifierLE a b || modifierLE b a) = true := by
  simp only [modifierLE, Bool.or_eq_true, decide_eq_true_eq]
  omega

theorem sortModifiers_perm (l : List AttributeModifier) : (sortModifiers l).Perm l :=
  List.mergeSort_perm l modifierLE

theorem sortModifiers_sorted (l : List AttributeModifier) :
    (sortModifiers l).Pairwise
      (fun a b => a.operation.priority ≤ b.operation.priority) := by
  have h := List.sorted_mergeSort modifierLE_trans modifierLE_total l
  exact h.imp (by intro a b hab; simpa [modifierLE] using hab)

theorem mem_priorityClass {k : Nat} {l : List AttributeModifier} {m : AttributeModifier} :
    m ∈ priorityClass k l ↔ m ∈ l ∧ m.operation.priority = k := by
  simp [priorityClass]

theorem priorityClass_sortModifiers (k : Nat) (l : List AttributeModifier) :
    priorityClass k (sortModifiers l) = priorityClass k l := by
  have hsub : List.Sublist (priorityClass k l) l := List.filter_sublist l
  have hpair : (priorityClass k l).Pairwise (fun a b => modifierLE a b = true) := by
    apply List.pairwise_of_forall_mem_list
    intro a ha b hb
    have ha' := (mem_priorityClass.mp ha).2
    have hb' := (mem_priorityClass.mp hb).2
    simp only [modifierLE, decide_eq_true_eq]
    omega
  have hstable : List.Sublist (priorityClass k l) (sortModifiers l) :=
    List.sublist_mergeSort modifierLE_trans modifierLE_total hpair hsub
  have hidem : priorityClass k (priorityClass k l) = priorityClass k l := by
    apply List.filter_eq_self.mpr
    intro a ha
    simpa using (mem_priorityClass.mp ha).2
  have hsub2 : List.Sublist (priorityClass k l) (priorityClass k (sortModifiers l)) := by
    have h2 := hstable.filter (fun m => m.operation.priority == k)
    rwa [show (priorityClass k l).filter (fun m => m.operation.priority == k) =
        priorityClass k (priorityClass k l) from rfl, hidem] at h2
  have hperm : (priorityClass k (sortModifiers l)).Perm (priorityClass k l) :=
    (sortModifiers_perm l).filter _
  exact (hsub2.eq_of_length hperm.length_eq.symm).symm

theorem sorted_priority_decomposition (s : List AttributeModifier)
    (hs : s.Pairwise (fun a b => a.operation.priority ≤ b.operation.priority)) :
    s = priorityClass 0 s ++ priorityClass 1 s ++ priorityClass 2 s ++
        priorityClass 3 s ++ priorityClass 4 s := by
  induction s with
  | nil => simp [priorityClass]
  | cons m t ih =>
    rw [List.pairwise_cons] at hs
    obtain ⟨hm, ht⟩ := hs
    have ih' := ih ht
    have hnil : ∀ k : Nat, k < m.operation.priority → priorityClass k t = [] := by
      intro k hk
      apply List.filter_eq_nil_iff.mpr
      intro a ha
      have := hm a ha
      simp only [beq_iff_eq]
      omega
    have ec : ∀ k : Nat, m.operation.priority = k →
        priorityClass k (m :: t) = m :: priorityClass k t := by
      intro k hk
      simp [priorityClass, List.filter_cons, hk]
    have en : ∀ k : Nat, m.operation.priority ≠ k →
        priorityClass k (m :: t) = priorityClass k t := by
      intro k hk
      simp [priorityClass, List.filter_cons, hk]
    cases hop : m.operation
    case AddBase =>
      have hpri : m.operation.priority = 0 := by rw [hop]; rfl
      rw [ec 0 hpri, en 1 (by omega), en 2 (by omega), en 3 (by omega), en 4 (by omega)]
      simp only [List.cons_append, List.append_assoc]
      congr 1
      simpa [List.append_assoc] using ih'
    case AddCurrent =>
      have hpri : m.operation.priority = 1 := by rw [hop]; rfl
      have h0 : priorityClass 0 t = [] := hnil 0 (by omega)
      rw [en 0 (by omega), ec 1 hpri, en 2 (by omega), en 3 (by omega), en 4 (by omega), h0]
      simp only [List.nil_append, List.cons_append, List.append_assoc]
      congr 1
      have h := ih'
      rw [h0] at h
      simpa [List.append_assoc] using h
    case MultiplyAdditive =>
      have hpri : m.operation.priority = 2 := by rw [hop]; rfl
      have h0 : priorityClass 0 t = [] := hnil 0 (by omega)
      have h1 : priorityClass 1 t = [] := hnil 1 (by omega)
      rw [en 0 (by omega), en 1 (by omega), ec 2 hpri, en 3 (by omega), en 4 (by omega), h0, h1]
      simp only [List.nil_append, List.cons_append, List.append_assoc]
      congr 1
      have h := ih'
      rw [h0, h1] at h
      simpa [List.append_assoc] using h
    case MultiplyMultiplicative =>
      have hpri : m.operation.priority = 3 := by rw [hop]; rfl
      have h0 : priorityClass 0 t = [] := hnil 0 (by omega)
      have h1 : priorityClass 1 t = [] := hnil 1 (by omega)
      have h2 : priorityClass 2 t = [] := hnil 2 (by omega)
      rw [en 0 (by omega), en 1 (by omega), en 2 (by omega), ec 3 hpri, en 4 (by omega),
        h0, h1, h2]
      simp only [List.nil_append, List.cons_append, List.append_assoc]
      congr 1
      have h := ih'
      rw [h0, h1, h2] at h
      simpa [List.append_assoc] using h
    case Override =>
      have hpri : m.operation.priority = 4 := by rw [hop]; rfl
      have h0 : priorityClass 0 t = [] := hnil 0 (by omega)
      have h1 : priorityClass 1 t = [] := hnil 1 (by omega)
      have h2 : priorityClass 2 t = [] := hnil 2 (by omega)
      have h3 : priorityClass 3 t = [] := hnil 3 (by omega)
      rw [en 0 (by omega), en 1 (by omega), en 2 (by omega), en 3 (by omega), ec 4 hpri,
        h0, h1, h2, h3]
      simp only [List.nil_append, List.cons_append, List.append_assoc]
      congr 1
      have h := ih'
      rw [h0, h1, h2, h3] at h
      simpa [List.append_assoc] using h

theorem sortModifiers_eq_classes (l : List AttributeModifier) :
    sortModifiers l = priorityClass 0 l ++ priorityClass 1 l ++ priorityClass 2 l ++
      priorityClass 3 l ++ priorityClass 4 l := by
  have h := sorted_priority_decomposition (sortModifiers l) (sortModifiers_sorted l)
  simpa [priorityClass_sortModifiers] using h

/-! ## Helper lemmas about the aggregation fold -/

theorem priority_eq_iff_operation (m : AttributeModifier) :
    (m.operation.priority = 0 ↔ m.operation = ModifierOperation.AddBase) ∧
    (m.operation.priority = 1 ↔ m.operation = ModifierOperation.AddCurrent) ∧
    (m.operation.priority = 2 ↔ m.operation = ModifierOperation.MultiplyAdditive) ∧
    (m.operation.priority = 3 ↔ m.operation = ModifierOperation.MultiplyMultiplicative) ∧
    (m.operation.priority = 4 ↔ m.operation = ModifierOperation.Override) := by
  cases m.operation <;> simp [ModifierOperation.priority]

theorem foldl_aggregateStep_addBase {l : List AttributeModifier}
    (h : ∀ m ∈ l, m.operation = ModifierOperation.AddBase) (acc : AggAcc) :
    l.foldl aggregateStep acc = acc := by
  induction l generalizing acc with
  | nil => rfl
  | cons x t ih =>
    have hx := h x (by simp)
    rw [List.foldl_cons, show aggregateStep acc x = acc from by simp [aggregateStep, hx]]
    exact ih (fun m hm => h m (by simp [hm])) acc

theorem foldl_aggregateStep_addCurrent {l : List AttributeModifier}
    (h : ∀ m ∈ l, m.operation = ModifierOperation.AddCurrent) (acc : AggAcc) :
    l.foldl aggregateStep acc =
      { acc with current := acc.current + (l.map (·.magnitude)).sum } := by
  induction l generalizing acc with
  | nil => simp
  | cons x t ih =>
    have hx := h x (by simp)
    rw [List.foldl_cons,
      show aggregateStep acc x = { acc with current := acc.current + x.magnitude } from by
        simp [aggregateStep, hx]]
    rw [ih (fun m hm => h m (by simp [hm]))]
    simp [add_assoc]

theorem foldl_aggregateStep_multiplyAdditive {l : List AttributeModifier}
    (h : ∀ m ∈ l, m.operation = ModifierOperation.MultiplyAdditive) (acc : AggAcc) :
    l.foldl aggregateStep acc =
      { acc with additive_multiplier := acc.additive_multiplier + (l.map (·.magnitude)).sum } := by
  induction l generalizing acc with
  | nil => simp
  | cons x t ih =>
    have hx := h x (by simp)
    rw [List.foldl_cons,
      show aggregateStep acc x =
          { acc with additive_multiplier := acc.additive_multiplier + x.magnitude } from by
        simp [aggregateStep, hx]]
    rw [ih (fun m hm => h m (by simp [hm]))]
    simp [add_assoc]

theorem foldl_aggregateStep_multiplyMultiplicative {l : List AttributeModifier}
    (h : ∀ m ∈ l, m.operation = ModifierOperation.MultiplyMultiplicative) (acc : AggAcc) :
    l.foldl aggregateStep acc =
      { acc with multiplicative_multiplier :=
          acc.multiplicative_multiplier * (l.map (fun m => 1 + m.magnitude)).prod } := by
  induction l generalizing acc with
  | nil => simp
  | cons x t ih =>
    have hx := h x (by simp)
    rw [List.foldl_cons,
      show aggregateStep acc x =
          { acc with multiplicative_multiplier :=
              acc.multiplicative_multiplier * (1 + x.magnitude) } from by
        simp [aggregateStep, hx]]
    rw [ih (fun m hm => h m (by simp [hm]))]
    simp [mul_assoc]

theorem foldl_aggregateStep_override {l : List AttributeModifier}
    (h : ∀ m ∈ l, m.operation = ModifierOperation.Override) (acc : AggAcc) :
    l.foldl aggregateStep acc =
      { acc with current := ((l.map (·.magnitude)).getLast?).getD acc.current } := by
  induction l generalizing acc with
  | nil => simp
  | cons x t ih =>
    have hx := h x (by simp)
    rw [List.foldl_cons,
      show aggregateStep acc x = { acc with current := x.magnitude } from by
        simp [aggregateStep, hx]]
    rw [ih (fun m hm => h m (by simp [hm]))]
    cases t with
    | nil => simp
    | cons y u =>
      cases hgl : (y.magnitude :: List.map (fun x => x.magnitude) u).getLast? with
      | none => exact absurd hgl (by simp)
      | some v => simp [hgl]

theorem priorityClass_eq_filter_operation (k : Nat) (op : ModifierOperation)
    (hiff : ∀ m : AttributeModifier, m.operation.priority = k ↔ m.operation = op)
    (l : List AttributeModifier) :
    priorityClass k l = l.filter (fun m => m.operation == op) := by
  apply List.filter_congr
  intro m _
  rw [Bool.eq_iff_iff]
  simp only [beq_iff_eq]
  exact hiff m

theorem aggregateValue_eq_claimFormula (base : ℚ) (l : List AttributeModifier) :
    aggregateValue base l = claimAggregateFormula base l := by
  have hc0 : priorityClass 0 l = l.filter (fun m => m.operation == ModifierOperation.AddBase) :=
    priorityClass_eq_filter_operation 0 _ (fun m => (priority_eq_iff_operation m).1) l
  have hc1 : priorityClass 1 l = l.filter (fun m => m.operation == ModifierOperation.AddCurrent) :=
    priorityClass_eq_filter_operation 1 _ (fun m => (priority_eq_iff_operation m).2.1) l
  have hc2 : priorityClass 2 l =
      l.filter (fun m => m.operation == ModifierOperation.MultiplyAdditive) :=
    priorityClass_eq_filter_operation 2 _ (fun m => (priority_eq_iff_operation m).2.2.1) l
  have hc3 : priorityClass 3 l =
      l.filter (fun m => m.operation == ModifierOperation.MultiplyMultiplicative) :=
    priorityClass_eq_filter_operation 3 _ (fun m => (priority_eq_iff_operation m).2.2.2.1) l
  have hc4 : priorityClass 4 l = l.filter (fun m => m.operation == ModifierOperation.Override) :=
    priorityClass_eq_filter_operation 4 _ (fun m => (priority_eq_iff_operation m).2.2.2.2) l
  have hm0 : ∀ m ∈ priorityClass 0 l, m.operation = ModifierOperation.AddBase := by
    intro m hm
    exact (priority_eq_iff_operation m).1.mp (mem_priorityClass.mp hm).2
  have hm1 : ∀ m ∈ priorityClass 1 l, m.operation = ModifierOperation.AddCurrent := by
    intro m hm
    exact (priority_eq_iff_operation m).2.1.mp (mem_priorityClass.mp hm).2
  have hm2 : ∀ m ∈ priorityClass 2 l, m.operation = ModifierOperation.MultiplyAdditive := by
    intro m hm
    exact (priority_eq_iff_operation m).2.2.1.mp (mem_priorityClass.mp hm).2
  have hm3 : ∀ m ∈ priorityClass 3 l, m.operation = ModifierOperation.MultiplyMultiplicative := by
    intro m hm
    exact (priority_eq_iff_operation m).2.2.2.1.mp (mem_priorityClass.mp hm).2
  have hm4 : ∀ m ∈ priorityClass 4 l, m.operation = ModifierOperation.Override := by
    intro m hm
    exact (priority_eq_iff_operation m).2.2.2.2.mp (mem_priorityClass.mp hm).2
  unfold aggregateValue
  rw [sortModifiers_eq_classes, List.foldl_append, List.foldl_append, List.foldl_append,
    List.foldl_append, foldl_aggregateStep_addBase hm0, foldl_aggregateStep_addCurrent hm1,
    foldl_aggregateStep_multiplyAdditive hm2, foldl_aggregateStep_multiplyMultiplicative hm3,
    foldl_aggregateStep_override hm4]
  unfold claimAggregateFormula lastOverrideMagnitude addCurrentSum multiplyAdditiveSum
    multiplyMultiplicativeProd
  rw [← hc1, ← hc2, ← hc3, ← hc4]
  cases hlast : ((priorityClass 4 l).map (·.magnitude)).getLast? with
  | none => simp [hlast]
  | some v => simp [hlast]

/-! ## Claim theorems -/

/-- Claim C1: for every attribute and every set of live modifiers targeting
it, one aggregator pass computes the current value as: start from
`base_value`, add every `AddCurrent` magnitude, let an `Override` (applied
last in priority order, later ones winning) replace the accumulated value,
then multiply by `1 + Σ MultiplyAdditive` and by `Π (1 + magnitude)` over the
`MultiplyMultiplicative` modifiers; in particular base 100 with
`[AddCurrent(+20), MultiplyAdditive(+0.5), MultiplyMultiplicative(+0.1)]`
yields 198, and base 50 with `[AddCurrent(+10), Override(75)]` yields 75. -/
theorem c1_aggregator_operation_semantics :
    (∀ (base : ℚ) (mods : List AttributeModifier),
      aggregateValue base mods = claimAggregateFormula base mods) ∧
    aggregatePassAttr 1 "Health"
      [⟨1, "Health", ModifierOperation.AddCurrent, 20⟩,
       ⟨1, "Health", ModifierOperation.MultiplyAdditive, 1/2⟩,
       ⟨1, "Health", ModifierOperation.MultiplyMultiplicative, 1/10⟩]
      (AttributeData.new 100) = ⟨100, 198⟩ ∧
    aggregatePassAttr 1 "Health"
      [⟨1, "Health", ModifierOperation.AddCurrent, 10⟩,
       ⟨1, "Health", ModifierOperation.Override, 75⟩]
      (AttributeData.new 50) = ⟨50, 75⟩ := by
  refine ⟨aggregateValue_eq_claimFormula, ?_, ?_⟩
  · have h1 : aggregateValue 100
        [⟨1, "Health", ModifierOperation.AddCurrent, 20⟩,
         ⟨1, "Health", ModifierOperation.MultiplyAdditive, 1/2⟩,
         ⟨1, "Health", ModifierOperation.MultiplyMultiplicative, 1/10⟩] = 198 := by
      rw [aggregateValue_eq_claimFormula]
      simp +decide [claimAggregateFormula, lastOverrideMagnitude, addCurrentSum,
        multiplyAdditiveSum, multiplyMultiplicativeProd]
      norm_num
    have hf1 : applicableModifiers 1 "Health"
        [⟨1, "Health", ModifierOperation.AddCurrent, 20⟩,
         ⟨1, "Health", ModifierOperation.MultiplyAdditive, 1/2⟩,
         ⟨1, "Health", ModifierOperation.MultiplyMultiplicative, 1/10⟩] =
        [⟨1, "Health", ModifierOperation.AddCurrent, 20⟩,
         ⟨1, "Health", ModifierOperation.MultiplyAdditive, 1/2⟩,
         ⟨1, "Health", ModifierOperation.MultiplyMultiplicative, 1/10⟩] := by
      simp +decide [applicableModifiers]
    simp only [aggregatePassAttr, AttributeData.new, hf1, h1, f32_epsilon]
    norm_num
  · have h2 : aggregateValue 50
        [⟨1, "Health", ModifierOperation.AddCurrent, 10⟩,
         ⟨1, "Health", ModifierOperation.Override, 75⟩] = 75 := by
      rw [aggregateValue_eq_claimFormula]
      simp +decide [claimAggregateFormula, lastOverrideMagnitude, addCurrentSum,
        multiplyAdditiveSum, multiplyMultiplicativeProd]
    have hf2 : applicableModifiers 1 "Health"
        [⟨1, "Health", ModifierOperation.AddCurrent, 10⟩,
         ⟨1, "Health", ModifierOperation.Override, 75⟩] =
        [⟨1, "Health", ModifierOperation.AddCurrent, 10⟩,
         ⟨1, "Health", ModifierOperation.Override, 75⟩] := by
      simp +decide [applicableModifiers]
    simp only [aggregatePassAttr, AttributeData.new, hf2, h2, f32_epsilon]
    norm_num

/-! ## Helper lemmas for determinism (C6) -/

theorem eq_of_perm_of_length_le_one {α : Type} {l₁ l₂ : List α}
    (h : l₁.Perm l₂) (hl : l₂.length ≤ 1) : l₁ = l₂ := by
  cases l₂ with
  | nil => exact h.eq_nil
  | cons a t =>
    cases t with
    | nil => exact List.perm_singleton.mp h
    | cons b u => simp at hl

theorem priorityClass_length_le_one {l : List AttributeModifier} (k : Nat)
    (h : l.Pairwise (fun x y => x.operation.priority ≠ y.operation.priority)) :
    (priorityClass k l).length ≤ 1 := by
  have hp : (priorityClass k l).Pairwise
      (fun x y => x.operation.priority ≠ y.operation.priority) :=
    h.sublist (List.filter_sublist l)
  cases hc : priorityClass k l with
  | nil => simp
  | cons x t =>
    cases t with
    | nil => simp
    | cons y u =>
      exfalso
      have hx : x ∈ priorityClass k l := by rw [hc]; simp
      have hy : y ∈ priorityClass k l := by rw [hc]; simp
      have hxk := (mem_priorityClass.mp hx).2
      have hyk := (mem_priorityClass.mp hy).2
      rw [hc] at hp
      have := (List.pairwise_cons.mp hp).1 y (by simp)
      omega

theorem sortModifiers_eq_of_perm_of_distinct {mods mods' : List AttributeModifier}
    (hperm : mods'.Perm mods)
    (hdist : mods.Pairwise (fun x y => x.operation.priority ≠ y.operation.priority)) :
    sortModifiers mods' = sortModifiers mods := by
  have hclass : ∀ k : Nat, priorityClass k mods' = priorityClass k mods := by
    intro k
    exact eq_of_perm_of_length_le_one (hperm.filter _) (priorityClass_length_le_one k hdist)
  rw [sortModifiers_eq_classes, sortModifiers_eq_classes, hclass 0, hclass 1, hclass 2,
    hclass 3, hclass 4]

/-- Claim C6: for a fixed multiset of modifiers, the aggregator's result is
deterministic: it does not depend on the submission order when the operation
priorities are pairwise distinct; modifiers of equal priority are kept in
their submission order by the stable sort; and re-running the pass with no
modifier changes leaves `current_value` unchanged (the pass is idempotent). -/
theorem c6_aggregation_determinism (base : ℚ) (o : Entity) (n : String)
    (a : AttributeData) (mods mods' : List AttributeModifier) :
    (mods'.Perm mods →
      mods.Pairwise (fun x y => x.operation.priority ≠ y.operation.priority) →
      aggregateValue base mods' = aggregateValue base mods) ∧
    (∀ k : Nat, priorityClass k (sortModifiers mods) = priorityClass k mods) ∧
    aggregatePassAttr o n mods (aggregatePassAttr o n mods a) =
      aggregatePassAttr o n mods a := by
  refine ⟨?_, fun k => priorityClass_sortModifiers k mods, ?_⟩
  · intro hperm hdist
    unfold aggregateValue
    rw [sortModifiers_eq_of_perm_of_distinct hperm hdist]
  · by_cases hg :
      |aggregateValue a.base_value (applicableModifiers o n mods) - a.current_value| >
        f32_epsilon
    · have h1 : aggregatePassAttr o n mods a =
          { a with current_value := aggregateValue a.base_value (applicableModifiers o n mods) } := by
        unfold aggregatePassAttr
        rw [if_pos hg]
      rw [h1]
      unfold aggregatePassAttr
      rw [if_neg]
      simp only [AttributeData.mk.injEq]
      rw [sub_self, abs_zero]
      simp only [gt_iff_lt, not_lt, f32_epsilon]
      positivity
    · have h1 : aggregatePassAttr o n mods a = a := by
        unfold aggregatePassAttr
        rw [if_neg hg]
      rw [h1, h1]

/-- Witness for C6 at a concrete input: two submission orders of the same
two-modifier set with distinct priorities aggregate to the same value. -/
theorem c6_witness :
    [(⟨1, "Health", ModifierOperation.MultiplyAdditive, 1⟩ : AttributeModifier),
     ⟨1, "Health", ModifierOperation.AddCurrent, 5⟩].Perm
      [⟨1, "Health", ModifierOperation.AddCurrent, 5⟩,
       ⟨1, "Health", ModifierOperation.MultiplyAdditive, 1⟩] ∧
    aggregateValue 10
      [⟨1, "Health", ModifierOperation.MultiplyAdditive, 1⟩,
       ⟨1, "Health", ModifierOperation.AddCurrent, 5⟩] =
      aggregateValue 10
        [⟨1, "Health", ModifierOperation.AddCurrent, 5⟩,
         ⟨1, "Health", ModifierOperation.MultiplyAdditive, 1⟩] :=
  ⟨by decide,
    (c6_aggregation_determinism 10 1 "Health" ⟨10, 10⟩ _ _).1 (by decide) (by decide)⟩

/-! ## Clamping (C9) -/

theorem clamp_idem (meta : AttributeMetadata) (x : ℚ) :
    meta.clamp (meta.clamp x) = meta.clamp x := by
  unfold AttributeMetadata.clamp
  cases meta.min_value with
  | none =>
    cases meta.max_value with
    | none => rfl
    | some mx =>
      simp only [min_def]
      split_ifs <;> rfl
  | some mn =>
    cases meta.max_value with
    | none =>
      simp only
      rw [max_assoc, max_self]
    | some mx =>
      simp only [min_def, max_def]
      split_ifs <;> first | rfl | linarith

theorem clampAttributeData_idem (meta : AttributeMetadata) (a : AttributeData) :
    clampAttributeData meta (clampAttributeData meta a) = clampAttributeData meta a := by
  unfold clampAttributeData
  rw [clamp_idem, clamp_idem]

/-- Claim C9: with bounds `[mn, mx]` (`mn ≤ mx`), a clamped value lies in
`[mn, mx]` — so after the clamp pass both `current_value` and `base_value` of
a bounded attribute do; and clamping is idempotent for every value and every
metadata, so running the clamp pass twice in a row equals running it once. -/
theorem c9_clamp_bounded_and_idempotent :
    (∀ (meta : AttributeMetadata) (mn mx : ℚ) (a : AttributeData),
      meta.min_value = some mn → meta.max_value = some mx → mn ≤ mx →
      mn ≤ (clampAttributeData meta a).base_value ∧
        (clampAttributeData meta a).base_value ≤ mx ∧
        mn ≤ (clampAttributeData meta a).current_value ∧
        (clampAttributeData meta a).current_value ≤ mx) ∧
    (∀ (meta : AttributeMetadata) (x : ℚ), meta.clamp (meta.clamp x) = meta.clamp x) ∧
    (∀ attrs : List (AttributeData × Option AttributeMetadata),
      clamp_attributes_system (clamp_attributes_system attrs) =
        clamp_attributes_system attrs) := by
  refine ⟨?_, clamp_idem, ?_⟩
  · intro meta mn mx a hmin hmax hle
    have hb : ∀ x : ℚ, mn ≤ meta.clamp x ∧ meta.clamp x ≤ mx := by
      intro x
      unfold AttributeMetadata.clamp
      rw [hmin, hmax]
      constructor
      · exact le_min (le_trans (le_max_right x mn) (le_refl _)) hle |>.trans (le_refl _)
      · exact min_le_right _ _
    exact ⟨(hb a.base_value).1, (hb a.base_value).2, (hb a.current_value).1,
      (hb a.current_value).2⟩
  · intro attrs
    unfold clamp_attributes_system
    rw [List.map_map]
    apply List.map_congr_left
    intro x _
    cases hx : x.2 with
    | none => simp [hx]
    | some meta => simp [hx, clampAttributeData_idem]

/-- Witness for C9 at concrete bounds `[0, 100]` and value 150. -/
theorem c9_witness :
    ((⟨"Health", some 0, some 100⟩ : AttributeMetadata).min_value = some 0) ∧
    ((⟨"Health", some 0, some 100⟩ : AttributeMetadata).max_value = some 100) ∧
    (0 : ℚ) ≤ 100 ∧
    (0 : ℚ) ≤ (clampAttributeData ⟨"Health", some 0, some 100⟩ ⟨150, 150⟩).base_value ∧
    (clampAttributeData ⟨"Health", some 0, some 100⟩ ⟨150, 150⟩).base_value ≤ 100 :=
  ⟨rfl, rfl, by norm_num,
    ((c9_clamp_bounded_and_idempotent.1 ⟨"Health", some 0, some 100⟩ 0 100 ⟨150, 150⟩
      rfl rfl (by norm_num)).1),
    ((c9_clamp_bounded_and_idempotent.1 ⟨"Health", some 0, some 100⟩ 0 100 ⟨150, 150⟩
      rfl rfl (by norm_num)).2.1)⟩

/-! ## Frame effect of the aggregator (C10) -/

/-- Claim C10: one aggregator pass never writes `base_value` (whatever the
modifiers, `AddBase` included), writes only `current_value`, and writes it
only when the newly computed value differs from the stored one by more than
`f32::EPSILON` — otherwise the attribute is left untouched. -/
theorem c10_aggregator_writes_only_current :
    (∀ (o : Entity) (n : String) (mods : List AttributeModifier) (a : AttributeData),
      (aggregatePassAttr o n mods a).base_value = a.base_value ∧
      (|aggregateValue a.base_value (applicableModifiers o n mods) - a.current_value| ≤
          f32_epsilon →
        aggregatePassAttr o n mods a = a) ∧
      ((aggregatePassAttr o n mods a).current_value = a.current_value ∨
        (aggregatePassAttr o n mods a).current_value =
          aggregateValue a.base_value (applicableModifiers o n mods))) ∧
    (∀ w : EffectWorld,
      (aggregate_attribute_modifiers_system w).attributes.map (fun ae => ae.data.base_value) =
        w.attributes.map (fun ae => ae.data.base_value)) := by
  constructor
  · intro o n mods a
    refine ⟨?_, ?_, ?_⟩
    · unfold aggregatePassAttr
      split <;> rfl
    · intro hle
      unfold aggregatePassAttr
      rw [if_neg (by simpa using hle)]
    · unfold aggregatePassAttr
      split
      · right; rfl
      · left; rfl
  · intro w
    unfold aggregate_attribute_modifiers_system
    simp only [List.map_map]
    apply List.map_congr_left
    intro ae _
    simp only [Function.comp_apply]
    unfold aggregatePassAttr
    split <;> rfl

/-- Witness for C10: with no modifiers and `current_value = base_value`, the
computed value equals the stored one, so the pass leaves the attribute
record exactly as it was. -/
theorem c10_witness :
    |aggregateValue (100 : ℚ) (applicableModifiers 1 "Health" []) - 100| ≤ f32_epsilon ∧
    aggregatePassAttr 1 "Health" [] ⟨100, 100⟩ = ⟨100, 100⟩ := by
  have h : |aggregateValue (100 : ℚ) (applicableModifiers 1 "Health" []) - 100| ≤
      f32_epsilon := by
    have : aggregateValue (100 : ℚ) (applicableModifiers 1 "Health" []) = 100 := by
      simp [aggregateValue, applicableModifiers, sortModifiers]
    rw [this]
    norm_num [f32_epsilon]
  exact ⟨h, ((c10_aggregator_writes_only_current.1 1 "Health" [] ⟨100, 100⟩).2.1 h)⟩

/-! ## Periodic effects (C4) -/

/-- Counterexample to claim C4 as stated: a periodic effect with period 2
ticked once with `dt = 5` does NOT execute twice in that tick — the source's
`PeriodicEffect::tick` reports at most one execution per call, so the
execute-periodic system observes exactly one execution, not two. -/
theorem c4_counterexample :
    periodicExecutionsInTick (PeriodicEffect.new 2) 5 = 1 ∧ (1 : Nat) ≠ 2 := by
  constructor
  · unfold periodicExecutionsInTick PeriodicEffect.tick PeriodicEffect.should_execute
      PeriodicEffect.new
    norm_num
  · omega

/-- Claim C4 as amended: `PeriodicEffect::tick` subtracts `dt` once and, when
the timer has crossed `≤ 0`, adds the period back once and reports exactly
ONE execution for that tick (the deficit stays in `time_until_next`, so
executions missed in a long tick happen on later ticks); concretely,
period 2 ticked with `dt = 5` executes once and leaves `time_until_next
= -1`.  Moreover `execute_periodic_effects_system` is a placeholder: it
re-applies no modifiers and re-evaluates nothing even when `tick` fires. -/
theorem c4_periodic_one_execution_per_tick :
    (∀ (p : PeriodicEffect) (delta : ℚ),
      p.tick delta =
        (if p.time_until_next - delta ≤ 0 then
          { period := p.period, time_until_next := p.time_until_next - delta + p.period }
        else
          { period := p.period, time_until_next := p.time_until_next - delta },
        decide (p.time_until_next - delta ≤ 0)) ∧
      periodicExecutionsInTick p delta ≤ 1) ∧
    periodicExecutionsInTick (PeriodicEffect.new 2) 5 = 1 ∧
    ((PeriodicEffect.new 2).tick 5).1.time_until_next = -1 ∧
    (∀ (delta : ℚ) (w : EffectWorld),
      (execute_periodic_effects_system delta w).modifiers = w.modifiers ∧
      (execute_periodic_effects_system delta w).attributes = w.attributes ∧
      (execute_periodic_effects_system delta w).tagContainers = w.tagContainers) := by
  refine ⟨?_, ?_, ?_, ?_⟩
  · intro p delta
    constructor
    · unfold PeriodicEffect.tick PeriodicEffect.should_execute
      by_cases h : p.time_until_next - delta ≤ 0
      · rw [if_pos h, if_pos (by simpa using h)]
        simp [h]
      · rw [if_neg h, if_neg (by simpa using h)]
        simp [h]
    · unfold periodicExecutionsInTick
      split <;> omega
  · unfold periodicExecutionsInTick PeriodicEffect.tick PeriodicEffect.should_execute
      PeriodicEffect.new
    norm_num
  · unfold PeriodicEffect.tick PeriodicEffect.should_execute PeriodicEffect.new
    norm_num
  · intro delta w
    exact ⟨rfl, rfl, rfl⟩

/-! ## Instant effects and `AddBase` (C2) -/

/-- Claim C2 evaluated on the code at the failing input: an `Instant` effect
with a single `AddBase(+25)` modifier on `Health` (base 100).  After modifier
creation, instant-effect removal and the aggregation pass, the instance is
gone but (a) its `AddBase` modifier entity is still alive — `remove_instant_
effects_system` despawns only the effect entity, not its modifiers — and
(b) `Health.base_value` is still 100: the aggregator skips `AddBase` ("should
have been applied when the effect was created") and no code ever folds it
into the base value. -/
theorem c2_instant_addbase_not_folded :
    permBuffWorldAfter.effects = [] ∧
    permBuffWorldAfter.modifiers =
      [⟨⟨1, "Health", ModifierOperation.AddBase, 25⟩, 5⟩] ∧
    permBuffWorldAfter.attributes = [⟨7, 1, "Health", ⟨100, 100⟩, none⟩] := by
  have hreg : registryGet permBuffRegistry ("perm_buff") = some permBuffDefinition := by
    simp [registryGet, permBuffRegistry]
  have hw1 : create_effect_modifiers_system permBuffRegistry [permBuffEffectEntity]
      permBuffWorld0 =
      { effects := [permBuffEffectEntity]
        modifiers := [⟨⟨1, "Health", ModifierOperation.AddBase, 25⟩, 5⟩]
        attributes := [⟨7, 1, "Health", ⟨100, 100⟩, none⟩]
        tagContainers := [] } := by
    simp [create_effect_modifiers_system, modifiersForEffect, hreg, permBuffWorld0,
      permBuffDefinition, permBuffEffectEntity, MagnitudeCalculation.evaluate]
  have hw2 : remove_instant_effects_system permBuffRegistry [permBuffEffectEntity]
      (create_effect_modifiers_system permBuffRegistry [permBuffEffectEntity] permBuffWorld0) =
      { effects := []
        modifiers := [⟨⟨1, "Health", ModifierOperation.AddBase, 25⟩, 5⟩]
        attributes := [⟨7, 1, "Health", ⟨100, 100⟩, none⟩]
        tagContainers := [] } := by
    rw [hw1]
    simp [remove_instant_effects_system, hreg, permBuffDefinition, permBuffEffectEntity]
  have hval : aggregateValue 100
      (applicableModifiers 1 "Health" [⟨1, "Health", ModifierOperation.AddBase, 25⟩]) = 100 := by
    have hf : applicableModifiers 1 "Health"
        [⟨1, "Health", ModifierOperation.AddBase, 25⟩] =
        [⟨1, "Health", ModifierOperation.AddBase, 25⟩] := by
      simp +decide [applicableModifiers]
    rw [hf, aggregateValue_eq_claimFormula]
    simp +decide [claimAggregateFormula, lastOverrideMagnitude, addCurrentSum,
      multiplyAdditiveSum, multiplyMultiplicativeProd]
  unfold permBuffWorldAfter
  rw [hw2]
  unfold aggregate_attribute_modifiers_system
  refine ⟨rfl, rfl, ?_⟩
  simp only [List.map_cons, List.map_nil, aggregatePassAttr]
  rw [hval]
  norm_num [f32_epsilon]

/-! ## Expiry removal (C5) -/

/-- Counterexample to claim C5 as stated: an expired effect instance that had
granted `Buff.Strength` to its target is removed together with its modifier,
but the target's tag container still contains `Buff.Strength` after the
removal pass — the granted tag is NOT revoked (no code grants or revokes
effect tags). -/
theorem c5_counterexample :
    (remove_expired_effects_system expiredBuffWorld).effects = [] ∧
    (remove_expired_effects_system expiredBuffWorld).modifiers = [] ∧
    (remove_expired_effects_system expiredBuffWorld).tagContainers =
      [(1, ["Buff.Strength"])] := by
  refine ⟨?_, ?_, rfl⟩ <;>
    simp [remove_expired_effects_system, expiredBuffWorld, effectExpired,
      EffectDuration.is_expired]

/-- Claim C5 as amended: when `EffectDuration.remaining ≤ 0`, the removal
pass removes the instance and destroys every `AttributeModifier` owned by it
(and keeps everything non-expired), but it performs no granted-tag
revocation: the targets' tag containers (and the attributes) are left
exactly unchanged. -/
theorem c5_expiry_destroys_modifiers_keeps_tags (w : EffectWorld) :
    (∀ e : EffectEntity, e ∈ (remove_expired_effects_system w).effects ↔
      e ∈ w.effects ∧ effectExpired e = false) ∧
    (∀ m : ModifierEntity, m ∈ (remove_expired_effects_system w).modifiers ↔
      m ∈ w.modifiers ∧ ¬∃ e, e ∈ w.effects ∧ effectExpired e = true ∧ e.id = m.source) ∧
    (remove_expired_effects_system w).tagContainers = w.tagContainers ∧
    (remove_expired_effects_system w).attributes = w.attributes := by
  refine ⟨?_, ?_, rfl, rfl⟩
  · intro e
    simp [remove_expired_effects_system, List.mem_filter]
  · intro m
    rw [show (remove_expired_effects_system w).modifiers = w.modifiers.filter (fun m =>
        !(w.effects.any fun e => effectExpired e && e.id == m.source)) from rfl]
    rw [List.mem_filter]
    constructor
    · rintro ⟨hm, hp⟩
      refine ⟨hm, ?_⟩
      rintro ⟨e, he, hexp, hid⟩
      rw [Bool.not_eq_true', List.any_eq_false] at hp
      have hpe := hp e he
      simp [hexp, hid] at hpe
    · rintro ⟨hm, hne⟩
      refine ⟨hm, ?_⟩
      rw [Bool.not_eq_true', List.any_eq_false]
      intro e he
      simp only [Bool.and_eq_true, beq_iff_eq, not_and]
      intro hexp hid
      exact hne ⟨e, he, hexp, hid⟩

/-! ## Effect application (C7, C8) -/

/-- Counterexample to claim C7 as stated: applying an effect whose
`definition_id` is not in the registry is indistinguishable from applying
nothing at all — the apply system returns the world unchanged (no
`DefinitionNotFound` is surfaced to any caller), and the modifier-creation
pass silently skips the unknown definition. -/
theorem c7_counterexample :
    apply_gameplay_effect_system permBuffRegistry [unknownApplyEvent] emptyEffectWorld =
      apply_gameplay_effect_system permBuffRegistry [] emptyEffectWorld ∧
    modifiersForEffect permBuffRegistry unknownEffectEntity = [] := by
  constructor
  · rfl
  · simp [modifiersForEffect, registryGet, permBuffRegistry, unknownEffectEntity]

/-- Claim C7 as amended: `apply` never panics — the apply system is an
unimplemented no-op that leaves the world unchanged for every registry and
every event list — and an unknown `definition_id` is silently dropped, not
surfaced: the modifier-creation pass produces no modifiers (and no error)
for an instance whose definition is missing from the registry. -/
theorem c7_apply_never_panics_silently_drops :
    (∀ (registry : List (String × GameplayEffectDefinition))
       (events : List ApplyGameplayEffectEvent) (w : EffectWorld),
      apply_gameplay_effect_system registry events w = w) ∧
    (∀ (registry : List (String × GameplayEffectDefinition)) (e : EffectEntity),
      registryGet registry e.active.definition_id = none →
      modifiersForEffect registry e = []) := by
  refine ⟨fun _ _ _ => rfl, ?_⟩
  intro registry e h
  unfold modifiersForEffect
  rw [h]

/-- Witness for C7: the unknown definition id of the fixture really is
missing from the fixture registry, and modifier creation yields nothing. -/
theorem c7_witness :
    registryGet permBuffRegistry unknownEffectEntity.active.definition_id = none ∧
    modifiersForEffect permBuffRegistry unknownEffectEntity = [] := by
  have h : registryGet permBuffRegistry unknownEffectEntity.active.definition_id = none := by
    simp [registryGet, permBuffRegistry, unknownEffectEntity]
  exact ⟨h, c7_apply_never_panics_silently_drops.2 permBuffRegistry unknownEffectEntity h⟩

/-- Claim C8 evaluated on the code at the failing input: three applications
of a `StackCount { max_stacks: 3 }` effect leave the world exactly unchanged
— no instance is ever created (let alone one with `stack_count = 3`),
because the apply system is an unimplemented stub.  The definition's
stacking policy is indeed `StackCount 3`, documented in the source as
"Increment stack count up to a maximum" but implemented nowhere. -/
theorem c8_stackcount_apply_unimplemented :
    apply_gameplay_effect_system poisonStackRegistry
        [poisonApplyEvent, poisonApplyEvent, poisonApplyEvent] emptyEffectWorld =
      emptyEffectWorld ∧
    ((apply_gameplay_effect_system poisonStackRegistry
        [poisonApplyEvent, poisonApplyEvent, poisonApplyEvent]
        emptyEffectWorld).effects.filter (fun e => e.target == 2)).length = 0 ∧
    poisonStackDefinition.stacking_policy = StackingPolicy.StackCount 3 :=
  ⟨rfl, rfl, rfl⟩

/-! ## Ability-state projection (C3) -/

/-- Counterexample to claim C3 as stated: a non-active spec whose own
cooldown is absent and whose tag check passes should read `Ready` per the
claim, but the source marks it `Cooldown` because an unexpired cooldown on a
completely unrelated entity (99) exists — the cooldown query is not filtered
to the spec, its definition or its owner. -/
theorem c3_counterexample :
    updateAbilityStateEntry strayCooldownWorld fireballSpecEntity = AbilityState.Cooldown ∧
    claimedAbilityState strayCooldownWorld fireballSpecEntity = AbilityState.Ready ∧
    AbilityState.Cooldown ≠ AbilityState.Ready := by
  refine ⟨?_, ?_, by simp⟩
  · simp [updateAbilityStateEntry, strayCooldownWorld, fireballSpecEntity,
      AbilityCooldown.is_expired]
  · simp [claimedAbilityState, strayCooldownWorld, fireballSpecEntity,
      AbilityCooldown.is_expired, abilityRegistryGet, tagsOf, fireballDefinition,
      check_ability_activation_requirements, hasMatchingGameplayTag]

/-- Claim C3 as amended: every tick each spec's displayed state is
recomputed as `Active` if `is_active`; else `Cooldown` if ANY unexpired
`AbilityCooldown` exists anywhere in the world (the source's query is not
filtered to the spec, its definition or its owner); else `Blocked` when the
definition and the owner's tag container are found and the required/blocked
tag check fails; else `Ready`. -/
theorem c3_ability_state_global_cooldown (w : AbilityWorld) (se : AbilitySpecEntity) :
    (update_ability_states_system w).specs =
      w.specs.map (fun s => { s with state := updateAbilityStateEntry w s }) ∧
    (se.spec.is_active = true → updateAbilityStateEntry w se = AbilityState.Active) ∧
    (se.spec.is_active = false →
      w.cooldowns.any (fun cd => !cd.2.is_expired) = true →
      updateAbilityStateEntry w se = AbilityState.Cooldown) ∧
    (se.spec.is_active = false →
      w.cooldowns.any (fun cd => !cd.2.is_expired) = false →
      ∀ (d : AbilityDefinition) (tags : List String),
        abilityRegistryGet w.registry se.spec.definition_id = some d →
        tagsOf w.tagContainers se.owner = some tags →
        updateAbilityStateEntry w se =
          (if check_ability_activation_requirements d tags then AbilityState.Ready
           else AbilityState.Blocked)) := by
  refine ⟨rfl, ?_, ?_, ?_⟩
  · intro h
    simp [updateAbilityStateEntry, h]
  · intro h hc
    simp [updateAbilityStateEntry, h, hc]
  · intro h hc d tags hd ht
    simp only [updateAbilityStateEntry, h, hc, hd, ht]
    by_cases hck : check_ability_activation_requirements d tags <;> simp [hck]

/-- Witness for C3 at the fixture world: the fireball spec is not active, an
unexpired cooldown exists somewhere, and the recomputed state is Cooldown. -/
theorem c3_witness :
    fireballSpecEntity.spec.is_active = false ∧
    strayCooldownWorld.cooldowns.any (fun cd => !cd.2.is_expired) = true ∧
    updateAbilityStateEntry strayCooldownWorld fireballSpecEntity = AbilityState.Cooldown := by
  have h1 : fireballSpecEntity.spec.is_active = false := rfl
  have h2 : strayCooldownWorld.cooldowns.any (fun cd => !cd.2.is_expired) = true := by
    simp [strayCooldownWorld, AbilityCooldown.is_expired]
  exact ⟨h1, h2,
    (c3_ability_state_global_cooldown strayCooldownWorld fireballSpecEntity).2.2.1 h1 h2⟩

end GAS
